import Mathlib

/-!
Shallow embedding of the result-summarising and primer-testing modules of the
DiPPER2 repository (`scripts/Summarize_results_module_improved.py` and
`scripts/Primer_testing_parallelize.py`), together with theorems settling the
frozen claims about them.

Conventions of the embedding:
* Python dictionaries with insertion order are modelled as ordered lists of
  entries; a dictionary value that is itself a dictionary becomes an
  `Entry.res`, any other value an `Entry.info`.
* A Python value that can be an `int` or the placeholder string `"NA"` is
  modelled by `AVal`.
* File system reads, subprocess spawns and `psutil` readings are modelled by
  explicit environment data passed to the functions (the behaviour each
  external interaction would have exhibited); the control flow acting on those
  observations is translated from the source.
* A line of a result file is modelled as its list of tab-separated columns
  (the `line.strip().split("\t")` of the source applied to the raw line).
* Python exceptions are modelled with `Except`; counters that Python holds as
  `int` are modelled as `Int`.
-/

/-- A value stored in one of the result dictionaries: either a Python `int`
or a placeholder string (such as `"NA"`). -/
inductive AVal where
  | num (n : Int)
  | str (s : String)
  deriving Repr, DecidableEq

/-- One per-file (per mismatch level) result dictionary as built by
`run_tests` in `Summarize_results_module_improved.py`: the values stored under
the keys `"Mismatches tested"`, `"Did the test pass?"`,
`"Number of assemblies, in silico PCR was performed on"`,
`"Number of assemblies with correct size amplicon"` and (for target tests and
the NA default only) `"Number of assemblies with wrong size amplicon"`. -/
structure TestRes where
  mismatches : String
  didPass : String
  assemblies : AVal
  correct : AVal
  wrong : Option AVal
  deriving Repr, DecidableEq

/-- An entry of the ordered `results_dict`: either a nested per-file result
dictionary (`res`) or a scalar summary value under a string key (`info`).
`interpret_and_reformat_sensi_speci_tests` skips the non-dictionary
entries. -/
inductive Entry where
  | info (label : String) (v : AVal)
  | res (r : TestRes)
  deriving Repr, DecidableEq

/-- One in-silico result file as seen by `run_tests`: the mismatch label
extracted from its name by `re.search` on `_(m\d)\.txt` (the regex on the
file name is abstracted into the stored label) and the lines of its contents,
each line given as its list of tab-separated columns. -/
structure SeqkitDoc where
  m_no : String
  lines : List (List String)
  deriving Repr, DecidableEq

/-- The per-line counting loop of `run_tests` (identical in both branches of
the `len(lines) == count` test): lines with fewer than 7 columns are skipped
with a warning; otherwise the length of column 7 (index 6) is compared with
the expected amplicon length. Returns `(passed_amp, failed_amp, processed)`
where `processed` is the number of lines that contributed to
`amp_f_overall`. -/
def countAmps (length : Nat) (lines : List (List String)) : Nat × Nat × Nat :=
  lines.foldl
    (fun acc split_line =>
      if split_line.length < 7 then acc
      else if (split_line.getD 6 "").length = length then
        (acc.1 + 1, acc.2.1, acc.2.2 + 1)
      else (acc.1, acc.2.1 + 1, acc.2.2 + 1))
    (0, 0, 0)

/-- The cross-file counters of `run_tests`:
`amp_f_overall, passed, failed, passed_n, failed_n`. -/
structure Counters where
  ampF : Int
  passed : Int
  failed : Int
  passedN : Int
  failedN : Int
  deriving Repr, DecidableEq

/-- Processing of one in-silico result file inside the `for doc in files:`
loop of `run_tests`: updates the cross-file counters and produces the
per-file result dictionary keyed by the file name. -/
def procDoc (length count : Nat) (target_type : String) (c : Counters)
    (d : SeqkitDoc) : Counters × Entry :=
  let pa := (countAmps length d.lines).1
  let fa := (countAmps length d.lines).2.1
  let pr := (countAmps length d.lines).2.2
  let c1 :=
    if d.lines.length = count then
      let ca := { c with ampF := c.ampF + (pr : Int) }
      let cb :=
        if pa = count then
          { ca with passed := ca.passed + 1, failedN := ca.failedN + 1 }
        else ca
      if 0 < fa then
        { cb with failed := cb.failed + 1, passedN := cb.passedN + 1 }
      else cb
    else
      let ca :=
        { c with
          failed := c.failed + (if target_type = "target" then 1 else 0),
          passedN := c.passedN + (if target_type = "neighbour" then 1 else 0),
          ampF := c.ampF + (pr : Int) }
      if target_type = "neighbour" ∧ 0 < pa then
        { ca with passedN := ca.passedN - 1, failedN := ca.failedN + 1 }
      else ca
  let entry :=
    if target_type = "target" then
      Entry.res
        { mismatches := d.m_no
          didPass := if count = pa then "passed" else "failed"
          assemblies := .num (count : Int)
          correct := .num (pa : Int)
          wrong := some (.num (fa : Int)) }
    else
      Entry.res
        { mismatches := d.m_no
          didPass := if c1.passed = (0 : Int) ∧ pa = 0 then "passed" else "failed"
          assemblies := .num (count : Int)
          correct := .num (pa : Int)
          wrong := none }
  (c1, entry)

/-- The `for doc in files:` loop of `run_tests`, threading the cross-file
counters and accumulating the per-file result entries in file order. -/
def run_tests_go (length count : Nat) (target_type : String) :
    Counters → List SeqkitDoc → Counters × List Entry
  | c, [] => (c, [])
  | c, d :: ds =>
    let p := procDoc length count target_type c d
    let rest := run_tests_go length count target_type p.1 ds
    (rest.1, p.2 :: rest.2)

/-- `run_tests` of `Summarize_results_module_improved.py`. The glob over the
in-silico folder is abstracted into the list `docs` of found files (with
their extracted mismatch labels and contents); `length` is the expected
amplicon length, `count` the cardinality of the assembly collection and
`target_type` is `"target"` or `"neighbour"`. When no files were found the
dictionary is filled with the NA defaults; otherwise each file is processed
and the summary counters are appended after the per-file entries. -/
def run_tests (docs : List SeqkitDoc) (length count : Nat)
    (target_type : String) : List Entry :=
  if docs.isEmpty then
    [Entry.res
      { mismatches := "NA", didPass := "NA", assemblies := .str "NA",
        correct := .str "NA", wrong := some (.str "NA") },
     Entry.info "Number of files that passed:" (.str "NA"),
     Entry.info "Number of files that failed:" (.str "NA")]
  else
    let p := run_tests_go length count target_type ⟨0, 0, 0, 0, 0⟩ docs
    p.2 ++
      [Entry.info
        "Number of files (in silico PCR result files for different number of primer mismatches) tested:"
        (.num (docs.length : Int))] ++
      (if target_type = "target" then
        [Entry.info "Number of files that passed:" (.num p.1.passed),
         Entry.info "Number of files that failed:" (.num p.1.failed)]
      else
        [Entry.info "Number of files that passed:" (.num p.1.passedN),
         Entry.info "Number of files that failed:" (.num p.1.failedN)])

/-- The nested dictionaries of a `results_dict`, in insertion order (the
values the key loop of `interpret_and_reformat_sensi_speci_tests` does not
skip). -/
def resultsOf : List Entry → List TestRes
  | [] => []
  | .info _ _ :: es => resultsOf es
  | .res r :: es => r :: resultsOf es

/-- The loop state of `interpret_and_reformat_sensi_speci_tests`:
`passed`, `ass_no`, `fail_m` and the `found_dict` flag. -/
structure IState where
  passed : String
  assNo : AVal
  failM : List String
  foundDict : Bool
  deriving Repr, DecidableEq

/-- One iteration of the key loop of
`interpret_and_reformat_sensi_speci_tests`: non-dictionary entries are
skipped; for flavour `"target"` a passing level only records the assembly
count, a failing level labelled `"m3"` is tolerated (recorded as failing but
the verdict is untouched) and any other failing level sets the verdict to
`"FAILED"`; for the other flavour a level with `"passed"` or `"NA"` keeps the
verdict and any other level sets it to `"FAILED"`, the level label being
appended to `fail_m` in both cases. -/
def interpStep (flavour : String) (st : IState) : Entry → IState
  | .info _ _ => st
  | .res r =>
    let st1 := { st with foundDict := true }
    if flavour = "target" then
      if r.didPass = "passed" then { st1 with assNo := r.assemblies }
      else if r.mismatches = "m3" then
        { st1 with failM := st1.failM ++ [r.mismatches], assNo := r.assemblies }
      else
        { st1 with
          passed := "FAILED"
          failM := st1.failM ++ [r.mismatches]
          assNo := r.assemblies }
    else
      if r.didPass = "passed" ∨ r.didPass = "NA" then
        { st1 with assNo := r.assemblies, failM := st1.failM ++ [r.mismatches] }
      else
        { st1 with
          passed := "FAILED"
          failM := st1.failM ++ [r.mismatches]
          assNo := r.assemblies }

/-- `interpret_and_reformat_sensi_speci_tests` of
`Summarize_results_module_improved.py`: folds the key loop over the ordered
dictionary entries starting from `("PASSED", 0, [], False)`, raises
`TypeError` when no nested dictionary was found, and otherwise returns the
verdict, the last recorded assembly count and the failing mismatch labels
joined with `", "`. -/
def interpret_and_reformat_sensi_speci_tests (test_res : List Entry)
    (flavour : String) : Except String (String × AVal × String) :=
  let st := test_res.foldl (interpStep flavour) ⟨"PASSED", .num 0, [], false⟩
  if st.foundDict then
    .ok (st.passed, st.assNo, String.intercalate ", " st.failM)
  else
    .error "No dictionary was found in the iteration over test_res."

example :
    interpret_and_reformat_sensi_speci_tests
      (run_tests [] 100 4 "neighbour") "neighbour" =
      .ok ("PASSED", .str "NA", "NA") := rfl

example :
    (run_tests [⟨"m0", [["c", "0", "3", "n", "0", "+", "AAA"]]⟩,
                ⟨"m1", [["c", "0", "4", "n", "0", "+", "AAAA"]]⟩]
        3 1 "neighbour")[1]? =
      some (.res { mismatches := "m1", didPass := "failed",
                   assemblies := .num 1, correct := .num 0, wrong := none }) := by
  decide


/-- Characterisation of the key loop of
`interpret_and_reformat_sensi_speci_tests` for flavour `"target"`: the
failing-level list collects the labels of all non-passing nested results, the
verdict flips to `"FAILED"` exactly when some non-passing result has a label
other than `"m3"`, and `found_dict` is set exactly when a nested result
exists. -/
lemma foldl_interpStep_target (es : List Entry) (st : IState) :
    ((es.foldl (interpStep "target") st).failM
        = st.failM ++ ((resultsOf es).filter
            (fun r => r.didPass != "passed")).map (fun r => r.mismatches))
    ∧ ((es.foldl (interpStep "target") st).passed
        = if ((resultsOf es).filter (fun r => r.didPass != "passed")).any
              (fun r => r.mismatches != "m3")
          then "FAILED" else st.passed)
    ∧ ((es.foldl (interpStep "target") st).foundDict
        = (st.foundDict || !(resultsOf es).isEmpty)) := by
  induction es generalizing st with
  | nil => simp [resultsOf]
  | cons e es ih =>
    cases e with
    | info l v =>
      simpa [resultsOf, interpStep] using ih st
    | res r =>
      by_cases hp : r.didPass = "passed"
      · have h := ih ⟨st.passed, r.assemblies, st.failM, true⟩
        simp [resultsOf, interpStep, hp] at h ⊢
        exact h
      · by_cases hm : r.mismatches = "m3"
        · have h := ih ⟨st.passed, r.assemblies, st.failM ++ [r.mismatches], true⟩
          simp [resultsOf, interpStep, hp, hm] at h ⊢
          exact h
        · have h := ih ⟨"FAILED", r.assemblies, st.failM ++ [r.mismatches], true⟩
          simp [resultsOf, interpStep, hp, hm] at h ⊢
          exact h

/-- C1: for flavour `"target"`, if the only level classified as failed is
mismatch level 3 then `interpret_and_reformat_sensi_speci_tests` returns
overall verdict `"PASSED"` with failing-levels `"m3"`; if additionally some
level of `m0`–`m2` failed, it returns `"FAILED"` and the failing-levels
string lists every failed level, the tolerated `m3` included. -/
theorem C1_sensitivity_m3_tolerated (es : List Entry) :
    ((((resultsOf es).filter (fun r => r.didPass != "passed")).map
          (fun r => r.mismatches) = ["m3"] →
      ∃ a, interpret_and_reformat_sensi_speci_tests es "target" =
        .ok ("PASSED", a, "m3"))
    ∧ ((resultsOf es ≠ []) →
      (∃ r ∈ (resultsOf es).filter (fun r => r.didPass != "passed"),
        r.mismatches ∈ (["m0", "m1", "m2"] : List String)) →
      ∃ a, interpret_and_reformat_sensi_speci_tests es "target" =
        .ok ("FAILED", a,
          String.intercalate ", "
            (((resultsOf es).filter (fun r => r.didPass != "passed")).map
              (fun r => r.mismatches))))) := by
  obtain ⟨hf, hp, hd⟩ :=
    foldl_interpStep_target es ⟨"PASSED", .num 0, [], false⟩
  constructor
  · intro hone
    have hne : resultsOf es ≠ [] := by
      intro h
      rw [h] at hone
      simp at hone
    have hfound :
        (es.foldl (interpStep "target") ⟨"PASSED", .num 0, [], false⟩).foundDict
          = true := by
      rw [hd]
      simp [List.isEmpty_iff, hne]
    have hany :
        ((resultsOf es).filter (fun r => r.didPass != "passed")).any
            (fun r => r.mismatches != "m3") = false := by
      rw [List.any_eq_false]
      intro r hr
      have : r.mismatches ∈
          (((resultsOf es).filter (fun r => r.didPass != "passed")).map
            (fun r => r.mismatches)) := List.mem_map_of_mem _ hr
      rw [hone] at this
      simp at this
      simp [this]
    refine ⟨(es.foldl (interpStep "target") ⟨"PASSED", .num 0, [], false⟩).assNo,
      ?_⟩
    unfold interpret_and_reformat_sensi_speci_tests
    simp only [hfound, if_true]
    rw [hp, hany, hf, hone]
    simp
    decide
  · intro hne hex
    obtain ⟨r, hr, hrm⟩ := hex
    have hfound :
        (es.foldl (interpStep "target") ⟨"PASSED", .num 0, [], false⟩).foundDict
          = true := by
      rw [hd]
      simp [List.isEmpty_iff, hne]
    have hany :
        ((resultsOf es).filter (fun r => r.didPass != "passed")).any
            (fun r => r.mismatches != "m3") = true := by
      rw [List.any_eq_true]
      refine ⟨r, hr, ?_⟩
      have hne3 : r.mismatches ≠ "m3" := by
        simp only [List.mem_cons, List.not_mem_nil, or_false] at hrm
        rcases hrm with h | h | h <;> rw [h] <;> decide
      simp [hne3]
    refine ⟨(es.foldl (interpStep "target") ⟨"PASSED", .num 0, [], false⟩).assNo,
      ?_⟩
    unfold interpret_and_reformat_sensi_speci_tests
    simp only [hfound, if_true]
    rw [hp, hany, hf]
    simp

/-- Witness for C1: a sweep failing only at `m3` is `PASSED` with
failing-levels `m3`; failing additionally at `m1` gives `FAILED` with
failing-levels `m1, m3`. -/
theorem C1_sensitivity_m3_tolerated_witness :
    (∃ a, interpret_and_reformat_sensi_speci_tests
        [Entry.res ⟨"m0", "passed", .num 2, .num 2, some (.num 0)⟩,
         Entry.res ⟨"m3", "failed", .num 2, .num 0, some (.num 2)⟩] "target" =
      .ok ("PASSED", a, "m3"))
    ∧ (∃ a, interpret_and_reformat_sensi_speci_tests
        [Entry.res ⟨"m0", "passed", .num 2, .num 2, some (.num 0)⟩,
         Entry.res ⟨"m1", "failed", .num 2, .num 1, some (.num 1)⟩,
         Entry.res ⟨"m3", "failed", .num 2, .num 0, some (.num 2)⟩] "target" =
      .ok ("FAILED", a, "m1, m3")) := by
  constructor
  · exact (C1_sensitivity_m3_tolerated _).1 (by decide)
  · exact (C1_sensitivity_m3_tolerated
      [Entry.res ⟨"m0", "passed", .num 2, .num 2, some (.num 0)⟩,
       Entry.res ⟨"m1", "failed", .num 2, .num 1, some (.num 1)⟩,
       Entry.res ⟨"m3", "failed", .num 2, .num 0, some (.num 2)⟩]).2
      (by decide)
      ⟨⟨"m1", "failed", .num 2, .num 1, some (.num 1)⟩, by decide, by decide⟩

/-- The entry list built by the file loop of `run_tests` has one entry per
processed file. -/
lemma run_tests_go_length (length count : Nat) (target_type : String)
    (c : Counters) (ds : List SeqkitDoc) :
    (run_tests_go length count target_type c ds).2.length = ds.length := by
  induction ds generalizing c with
  | nil => rfl
  | cons d ds ih => simp [run_tests_go, ih]

/-- The `k`-th entry built by the file loop of `run_tests` is the entry
`procDoc` produces for the `k`-th file, with the counters advanced over the
preceding files. -/
lemma run_tests_go_getElem (length count : Nat) (target_type : String)
    (c : Counters) (ds : List SeqkitDoc) (k : Nat) :
    (run_tests_go length count target_type c ds).2[k]? =
      (ds[k]?).map (fun d =>
        (procDoc length count target_type
          ((ds.take k).foldl
            (fun c d => (procDoc length count target_type c d).1) c) d).2) := by
  induction ds generalizing c k with
  | nil => simp [run_tests_go]
  | cons d ds ih =>
    cases k with
    | zero => simp [run_tests_go]
    | succ k => simpa [run_tests_go] using ih _ k

/-- Advancing the counters over one file adds 1 to the cumulative `passed`
counter exactly when the file has `count` lines and all of them carry a
correct-size amplicon. -/
lemma procDoc_passed (length count : Nat) (target_type : String)
    (c : Counters) (d : SeqkitDoc) :
    (procDoc length count target_type c d).1.passed =
      c.passed + (if d.lines.length = count ∧ (countAmps length d.lines).1 = count
        then 1 else 0) := by
  unfold procDoc
  by_cases h1 : d.lines.length = count
  · by_cases h2 : (countAmps length d.lines).1 = count
    · simp [h1, h2]
      split <;> rfl
    · simp [h1, h2]
      split <;> rfl
  · simp [h1]
    split <;> rfl

/-- The cumulative `passed` counter after the file loop counts the files with
`count` lines that all carry a correct-size amplicon. -/
lemma foldl_procDoc_passed (length count : Nat) (target_type : String)
    (c : Counters) (ds : List SeqkitDoc) :
    (ds.foldl (fun c d => (procDoc length count target_type c d).1) c).passed =
      c.passed + (ds.countP (fun d =>
        decide (d.lines.length = count ∧ (countAmps length d.lines).1 = count)) : Int) := by
  induction ds generalizing c with
  | nil => simp
  | cons d ds ih =>
    rw [List.foldl_cons, ih, List.countP_cons, procDoc_passed]
    by_cases h : d.lines.length = count ∧ (countAmps length d.lines).1 = count
    · simp [h]
      omega
    · simp [h]

/-- An `if` between the two verdict strings equals `"passed"` exactly when
its condition holds. -/
lemma ite_eq_passed (c : Prop) [Decidable c] :
    ((if c then "passed" else "failed") = "passed") ↔ c := by
  split
  · simp_all
  · simp_all

/-- C2 counterexample: with expected amplicon length 3 and a neighbour
collection of cardinality 1, the file for level `m0` contains one
correct-size amplicon and the file for level `m1` contains one wrong-size
amplicon only. Level `m1` has zero correct-size hits (its
`"Number of assemblies with correct size amplicon"` entry is 0, and
`countAmps` confirms it), yet `run_tests` classifies `m1` as `"failed"`,
because the cumulative `passed` counter carried over from level `m0` is
non-zero. This refutes the claim that a level is classified `"passed"` iff
zero assemblies at that level produced a correct-size amplicon,
independently of other levels. -/
theorem C2_counterexample_cross_level :
    (run_tests [⟨"m0", [["c", "0", "3", "n", "0", "+", "AAA"]]⟩,
                ⟨"m1", [["c", "0", "4", "n", "0", "+", "AAAA"]]⟩]
        3 1 "neighbour")[1]? =
      some (.res { mismatches := "m1", didPass := "failed",
                   assemblies := .num 1, correct := .num 0, wrong := none })
    ∧ (countAmps 3 [["c", "0", "4", "n", "0", "+", "AAAA"]]).1 = 0 := by
  constructor
  · decide
  · decide

/-- The per-file entry `procDoc` produces for a neighbour test, with the
internal cumulative counter exposed as the first projection. -/
lemma procDoc_neighbour_entry (length count : Nat) (c : Counters)
    (d : SeqkitDoc) :
    (procDoc length count "neighbour" c d).2 =
      Entry.res
        { mismatches := d.m_no
          didPass :=
            if (procDoc length count "neighbour" c d).1.passed = (0 : Int) ∧
                (countAmps length d.lines).1 = 0
            then "passed" else "failed"
          assemblies := .num (count : Int)
          correct := .num ((countAmps length d.lines).1 : Int)
          wrong := none } := rfl

/-- C2 amended: for a Specificity (neighbour) sweep, `run_tests` classifies
the `k`-th level file as `"passed"` iff zero lines of that file carry a
correct-size amplicon AND no file up to and including the `k`-th had exactly
`count` lines all carrying correct-size amplicons (the cumulative `passed`
counter of the sweep). The classification therefore depends on hits counted
at earlier levels of the same sweep, not only on the level itself. -/
theorem C2_specificity_level_classification (docs : List SeqkitDoc)
    (length count k : Nat) (d : SeqkitDoc) (hk : docs[k]? = some d) :
    ∃ r, (run_tests docs length count "neighbour")[k]? = some (.res r) ∧
      (r.didPass = "passed" ↔
        ((countAmps length d.lines).1 = 0 ∧
          (docs.take (k + 1)).countP (fun x =>
            decide (x.lines.length = count ∧
              (countAmps length x.lines).1 = count)) = 0)) := by
  have hlt : k < docs.length := by
    by_contra hge
    push_neg at hge
    rw [List.getElem?_eq_none hge] at hk
    exact Option.noConfusion hk
  have hne : docs.isEmpty = false := by
    cases docs
    · simp at hlt
    · rfl
  have hlen : (run_tests_go length count "neighbour" ⟨0, 0, 0, 0, 0⟩ docs).2.length
      = docs.length := run_tests_go_length ..
  have happ :
      (run_tests docs length count "neighbour")[k]? =
        (run_tests_go length count "neighbour" ⟨0, 0, 0, 0, 0⟩ docs).2[k]? := by
    simp only [run_tests, hne, Bool.false_eq_true, if_false, List.append_assoc]
    exact List.getElem?_append_left (by rw [hlen]; exact hlt)
  have hpass : (procDoc length count "neighbour"
      ((docs.take k).foldl (fun c d => (procDoc length count "neighbour" c d).1)
        ⟨0, 0, 0, 0, 0⟩) d).1.passed
      = ((docs.take (k + 1)).countP (fun x =>
          decide (x.lines.length = count ∧
            (countAmps length x.lines).1 = count)) : Int) := by
    rw [procDoc_passed, foldl_procDoc_passed, List.take_succ, hk,
      List.countP_append]
    by_cases hc : d.lines.length = count ∧ (countAmps length d.lines).1 = count
    · simp [hc]
    · simp [hc]
  rw [happ, run_tests_go_getElem, hk]
  simp only [Option.map_some']
  rw [procDoc_neighbour_entry]
  refine ⟨_, rfl, ?_⟩
  rw [ite_eq_passed, hpass]
  constructor
  · rintro ⟨h1, h2⟩
    exact ⟨h2, by exact_mod_cast h1⟩
  · rintro ⟨h1, h2⟩
    exact ⟨by exact_mod_cast h2, h1⟩

/-- Witness for the amended C2 at the concrete two-level neighbour sweep of
the counterexample. -/
theorem C2_specificity_level_classification_witness :
    ∃ r, (run_tests [⟨"m0", [["c", "0", "3", "n", "0", "+", "AAA"]]⟩,
                     ⟨"m1", [["c", "0", "4", "n", "0", "+", "AAAA"]]⟩]
        3 1 "neighbour")[1]? = some (.res r) ∧
      (r.didPass = "passed" ↔
        ((countAmps 3 [["c", "0", "4", "n", "0", "+", "AAAA"]]).1 = 0 ∧
          ([(⟨"m0", [["c", "0", "3", "n", "0", "+", "AAA"]]⟩ : SeqkitDoc),
            ⟨"m1", [["c", "0", "4", "n", "0", "+", "AAAA"]]⟩].take 2).countP
            (fun x => decide (x.lines.length = 1 ∧
              (countAmps 3 x.lines).1 = 1)) = 0)) :=
  C2_specificity_level_classification
    [⟨"m0", [["c", "0", "3", "n", "0", "+", "AAA"]]⟩,
     ⟨"m1", [["c", "0", "4", "n", "0", "+", "AAAA"]]⟩] 3 1 1
    ⟨"m1", [["c", "0", "4", "n", "0", "+", "AAAA"]]⟩ (by decide)

/-- C3 counterexample: for a neighbour collection of cardinality 4 with no
result file at any level, the `run_tests` +
`interpret_and_reformat_sensi_speci_tests` pipeline yields the verdict
`("PASSED", "NA", "NA")`: the assemblies-processed slot carries the
placeholder string `"NA"`, not the collection cardinality 4, and the
failing-levels string is `"NA"`, not empty, refuting the claimed
`(PASSED, 4, [])`. -/
theorem C3_counterexample_no_files_NA :
    interpret_and_reformat_sensi_speci_tests
        (run_tests [] 100 4 "neighbour") "neighbour" =
      .ok ("PASSED", .str "NA", "NA")
    ∧ AVal.str "NA" ≠ AVal.num 4 ∧ ("NA" : String) ≠ "" := by
  refine ⟨rfl, by decide, by decide⟩

/-- C3 amended: for every neighbour collection cardinality and expected
amplicon length, when no result file exists for any level the combined
pipeline yields verdict `"PASSED"`, with the assemblies-processed slot set to
the placeholder `"NA"` (not the cardinality) and the failing-levels string
`"NA"` (not empty). -/
theorem C3_no_files_specificity_passes (length count : Nat) :
    interpret_and_reformat_sensi_speci_tests
        (run_tests [] length count "neighbour") "neighbour" =
      .ok ("PASSED", .str "NA", "NA") := rfl

/-- The behaviour of one spawned `seqkit amplicon` subprocess, as observed by
`process_file_amplicon` in `Primer_testing_parallelize.py`: the call to
`communicate` either completes (with stdout, stderr and an exit code),
raises `subprocess.TimeoutExpired`, or raises some other exception. -/
inductive SeqkitBehaviour where
  | completes (output error : String) (returncode : Int)
  | timesOut
  | otherError
  deriving Repr, DecidableEq

/-- The environment of one job of `process_file_amplicon`: whether the
assembly file can be opened and read, and how the spawned subprocess would
behave. -/
structure JobEnv where
  fileReadable : Bool
  behaviour : SeqkitBehaviour
  deriving Repr, DecidableEq

/-- The Python exceptions that escape the embedded functions of
`Primer_testing_parallelize.py`. -/
inductive PyErr where
  | osError
  | fileNotFoundError
  | systemExit
  deriving Repr, DecidableEq

/-- What one call of `process_file_amplicon` did: whether the `seqkit`
subprocess was spawned, the argument vector it was spawned with (empty when
no spawn happened), and the returned value — `some output` on the normal
path, `none` when an exception was caught (`TimeoutExpired` or any other
`Exception`), or a raised `OSError` when the assembly file could not be
read. -/
structure ProcTrace where
  spawned : Bool
  cmd : List String
  result : Except PyErr (Option String)
  deriving Repr

/-- The argument vector `process_file_amplicon` passes to `subprocess.Popen`:
`["seqkit", "amplicon", "-F", frwd, "-R", rev, "--bed", "-m", str(mismatch)]`. -/
def seqkit_amplicon_cmd (frwd rev : String) (mismatch : Int) : List String :=
  ["seqkit", "amplicon", "-F", frwd, "-R", rev, "--bed", "-m", toString mismatch]

/-- `process_file_amplicon` of `Primer_testing_parallelize.py`. Reading the
assembly file, spawning the subprocess and the daemon memory-monitor thread
are abstracted into `env`; the `timeout` argument is forwarded to
`communicate` (a `timesOut` behaviour corresponds to `communicate` raising
`subprocess.TimeoutExpired`, which can only happen when `timeout` is set).
When `communicate` completes, a non-zero `returncode` is only logged as a
warning and the captured stdout is returned exactly as on a zero exit;
`TimeoutExpired` and any other exception are caught and `None` is
returned. -/
def process_file_amplicon (env : JobEnv) (frwd rev : String) (mismatch : Int)
    (timeout : Option Nat) : ProcTrace :=
  if env.fileReadable then
    { spawned := true
      cmd := seqkit_amplicon_cmd frwd rev mismatch
      result :=
        match env.behaviour with
        | .completes output _error _returncode => .ok (some output)
        | .timesOut => .ok none
        | .otherError => .ok none }
  else
    { spawned := false, cmd := [], result := .error .osError }

/-- `run_seqkit_amplicon_with_optional_timeout` of
`Primer_testing_parallelize.py`. The glob over the assembly folder is
abstracted into the list `jobs` (one environment per assembly file); the
memory-admission step (`wait_for_memory`, which calls `sys.exit(1)` on its
`TimeoutError`) is abstracted into the flag `admitted`, and is modelled in
full by `wait_for_memory` below. `pool.map` yields one
`process_file_amplicon` result per job in order; an exception raised inside
a worker is re-raised by `pool.map` (modelled as the first erroring job);
jobs that returned `None` are then dropped by the
`successful = [res for res in results if res is not None]` filter, and only
the surviving outputs are returned. `max_workers` does not affect the
collected results and is omitted. -/
def run_seqkit_amplicon_with_optional_timeout (frwd rev : String)
    (admitted : Bool) (jobs : List JobEnv) (mismatch : Int)
    (timeout : Option Nat) : Except PyErr (List String) :=
  if jobs.isEmpty then .error .fileNotFoundError
  else if !admitted then .error .systemExit
  else
    let traces := jobs.map
      (fun env => process_file_amplicon env frwd rev mismatch timeout)
    match traces.findSome? (fun t =>
        match t.result with | .error e => some e | .ok _ => none) with
    | some e => .error e
    | none =>
      .ok (traces.filterMap (fun t =>
        match t.result with | .ok (some s) => some s | _ => none))

/-- The outputs of the jobs of a batch whose subprocess completed (the jobs
whose `process_file_amplicon` result is `some output`). -/
def successesOf (jobs : List JobEnv) : List String :=
  jobs.filterMap (fun env =>
    match env.behaviour with
    | .completes output _ _ => some output
    | _ => none)

example :
    run_seqkit_amplicon_with_optional_timeout "A" "T" true
      [⟨true, .completes "out" "" 0⟩, ⟨true, .timesOut⟩] 0 (some 30) =
      .ok ["out"] := rfl

/-- When every assembly file of a batch is readable, no worker raises, so
`pool.map` re-raises nothing. -/
lemma traces_findSome?_none (frwd rev : String) (jobs : List JobEnv)
    (mismatch : Int) (timeout : Option Nat)
    (hread : ∀ e ∈ jobs, e.fileReadable = true) :
    ((jobs.map (fun env => process_file_amplicon env frwd rev mismatch timeout)
      ).findSome? (fun t =>
        match t.result with | .error e => some e | .ok _ => none)) = none := by
  induction jobs with
  | nil => rfl
  | cons e js ih =>
    have he : e.fileReadable = true := hread e (List.mem_cons_self e js)
    have h2 := ih (fun x hx => hread x (List.mem_cons_of_mem e hx))
    simp only [List.map_cons, List.findSome?_cons]
    rw [process_file_amplicon, if_pos he]
    cases e.behaviour <;> simpa using h2

/-- When every assembly file of a batch is readable, the `successful` filter
of `run_seqkit_amplicon_with_optional_timeout` keeps exactly the outputs of
the jobs whose subprocess completed. -/
lemma traces_filterMap_successes (frwd rev : String) (jobs : List JobEnv)
    (mismatch : Int) (timeout : Option Nat)
    (hread : ∀ e ∈ jobs, e.fileReadable = true) :
    ((jobs.map (fun env => process_file_amplicon env frwd rev mismatch timeout)
      ).filterMap (fun t =>
        match t.result with | .ok (some s) => some s | _ => none))
      = successesOf jobs := by
  induction jobs with
  | nil => rfl
  | cons e js ih =>
    have he : e.fileReadable = true := hread e (List.mem_cons_self e js)
    have h2 := ih (fun x hx => hread x (List.mem_cons_of_mem e hx))
    simp only [List.map_cons, List.filterMap_cons, successesOf] at h2 ⊢
    rw [process_file_amplicon, if_pos he]
    cases e.behaviour <;> simp [h2]

/-- For a non-empty batch of readable assembly files that passed the memory
admission, `run_seqkit_amplicon_with_optional_timeout` returns exactly the
outputs of the completed jobs. -/
lemma run_seqkit_amplicon_ok (frwd rev : String) (jobs : List JobEnv)
    (mismatch : Int) (timeout : Option Nat) (hne : jobs ≠ [])
    (hread : ∀ e ∈ jobs, e.fileReadable = true) :
    run_seqkit_amplicon_with_optional_timeout frwd rev true jobs mismatch
      timeout = .ok (successesOf jobs) := by
  have h1 : jobs.isEmpty = false := by simp [List.isEmpty_iff, hne]
  simp only [run_seqkit_amplicon_with_optional_timeout, h1, Bool.false_eq_true,
    if_false, Bool.not_true,
    traces_findSome?_none frwd rev jobs mismatch timeout hread,
    traces_filterMap_successes frwd rev jobs mismatch timeout hread]

/-- The number of completed jobs of a batch. -/
lemma successesOf_length (jobs : List JobEnv) :
    (successesOf jobs).length = jobs.countP (fun e =>
      match e.behaviour with
      | .completes _ _ _ => true
      | _ => false) := by
  induction jobs with
  | nil => rfl
  | cons e js ih =>
    simp only [successesOf, List.filterMap_cons, List.countP_cons] at ih ⊢
    cases e.behaviour <;> simp [ih]

/-- C4 counterexample: a batch of two jobs, one completing and one timing
out, returns a single outcome — the timed-out job is dropped by the
`successful` filter, so the returned collection is not in 1:1 correspondence
with the input jobs. -/
theorem C4_counterexample_dropped_job :
    run_seqkit_amplicon_with_optional_timeout "A" "T" true
        [⟨true, .completes "out" "" 0⟩, ⟨true, .timesOut⟩] 0 (some 30) =
      .ok ["out"]
    ∧ (["out"] : List String).length ≠
        ([⟨true, .completes "out" "" 0⟩, ⟨true, .timesOut⟩] : List JobEnv).length := by
  exact ⟨rfl, by decide⟩

/-- C4 amended: for every non-empty batch of readable assembly files that
passed memory admission, `run_seqkit_amplicon_with_optional_timeout` returns
one outcome per *successfully completed* job (in job order); jobs that
failed or timed out return `None` and are dropped by the `successful`
filter, so the returned collection is in 1:1 correspondence with the
completed jobs only, not with all input jobs. -/
theorem C4_outcomes_match_completed_jobs (frwd rev : String)
    (jobs : List JobEnv) (mismatch : Int) (timeout : Option Nat)
    (hne : jobs ≠ []) (hread : ∀ e ∈ jobs, e.fileReadable = true) :
    run_seqkit_amplicon_with_optional_timeout frwd rev true jobs mismatch
        timeout = .ok (successesOf jobs)
    ∧ (successesOf jobs).length = jobs.countP (fun e =>
        match e.behaviour with
        | .completes _ _ _ => true
        | _ => false) :=
  ⟨run_seqkit_amplicon_ok frwd rev jobs mismatch timeout hne hread,
   successesOf_length jobs⟩

/-- Witness for the amended C4: a two-job batch with one timeout returns
exactly the one completed output. -/
theorem C4_outcomes_match_completed_jobs_witness :
    run_seqkit_amplicon_with_optional_timeout "A" "T" true
        [⟨true, .completes "out" "" 0⟩, ⟨true, .timesOut⟩] 0 (some 30) =
      .ok (successesOf [⟨true, .completes "out" "" 0⟩, ⟨true, .timesOut⟩])
    ∧ (successesOf [⟨true, .completes "out" "" 0⟩, ⟨true, .timesOut⟩]).length =
        ([⟨true, .completes "out" "" 0⟩, ⟨true, .timesOut⟩] : List JobEnv).countP
          (fun e => match e.behaviour with
            | .completes _ _ _ => true
            | _ => false) :=
  C4_outcomes_match_completed_jobs "A" "T"
    [⟨true, .completes "out" "" 0⟩, ⟨true, .timesOut⟩] 0 (some 30)
    (by decide) (by decide)

/-- C5 counterexample: a job whose subprocess exits with code 1 produces the
very same trace as one exiting with code 0 — the returned value is
`some stdout` in both cases, so a non-zero exit is not recorded as a Failed
outcome distinguishable from a Success outcome. -/
theorem C5_counterexample_nonzero_exit_indistinguishable :
    process_file_amplicon ⟨true, .completes "X" "boom" 1⟩ "A" "T" 0 none =
      process_file_amplicon ⟨true, .completes "X" "" 0⟩ "A" "T" 0 none
    ∧ (process_file_amplicon ⟨true, .completes "X" "boom" 1⟩ "A" "T" 0
        none).result = .ok (some "X") :=
  ⟨rfl, rfl⟩

/-- C5 amended: for every job whose spawned subprocess exits with a non-zero
exit code, `process_file_amplicon` only logs a warning and returns the
captured stdout as if the job had succeeded (the outcome is not
distinguishable from a Success); it does not raise, and the remaining jobs
of the batch are still processed — the batch result is the non-zero-exit
job's output followed by the outputs of the remaining completed jobs. -/
theorem C5_nonzero_exit_logged_only (output error : String) (returncode : Int)
    (frwd rev : String) (mismatch : Int) (timeout : Option Nat)
    (rest : List JobEnv) (hread : ∀ e ∈ rest, e.fileReadable = true) :
    (process_file_amplicon ⟨true, .completes output error returncode⟩ frwd rev
        mismatch timeout).result = .ok (some output)
    ∧ run_seqkit_amplicon_with_optional_timeout frwd rev true
        (⟨true, .completes output error returncode⟩ :: rest) mismatch timeout
      = .ok (output :: successesOf rest) := by
  constructor
  · rfl
  · have h := run_seqkit_amplicon_ok frwd rev
      (⟨true, .completes output error returncode⟩ :: rest) mismatch timeout
      (by simp)
      (by
        intro e he
        rcases List.mem_cons.mp he with h | h
        · rw [h]
        · exact hread e h)
    rw [h]
    rfl

/-- Witness for the amended C5: a batch of a non-zero-exit job followed by a
clean job returns both outputs, in order. -/
theorem C5_nonzero_exit_logged_only_witness :
    (process_file_amplicon ⟨true, .completes "X" "boom" 1⟩ "A" "T" 0
        none).result = .ok (some "X")
    ∧ run_seqkit_amplicon_with_optional_timeout "A" "T" true
        [⟨true, .completes "X" "boom" 1⟩, ⟨true, .completes "Y" "" 0⟩] 0 none
      = .ok ("X" :: successesOf [⟨true, .completes "Y" "" 0⟩]) :=
  C5_nonzero_exit_logged_only "X" "boom" 1 "A" "T" 0 none
    [⟨true, .completes "Y" "" 0⟩] (by decide)

/-- C7 counterexample: a job with allowed-mismatch count `-1` is not
rejected: the `seqkit` subprocess is spawned, with `-m -1` passed literally
on its command line, and no validation error is raised (the call returns a
normal value). -/
theorem C7_counterexample_negative_mismatch_spawns :
    (process_file_amplicon ⟨true, .completes "" "" 2⟩ "ACGT" "TTTT" (-1)
        none).spawned = true
    ∧ (process_file_amplicon ⟨true, .completes "" "" 2⟩ "ACGT" "TTTT" (-1)
        none).cmd =
      ["seqkit", "amplicon", "-F", "ACGT", "-R", "TTTT", "--bed", "-m", "-1"]
    ∧ (process_file_amplicon ⟨true, .completes "" "" 2⟩ "ACGT" "TTTT" (-1)
        none).result = .ok (some "") := by
  refine ⟨rfl, by decide, rfl⟩

/-- C7 amended: `process_file_amplicon` performs no validation of the
allowed-mismatch count: for every job with a readable assembly file and a
negative mismatch count, the external subprocess is spawned (with the
negative count passed as the `-m` argument) and no validation error is
raised before or instead of the spawn. -/
theorem C7_no_negative_mismatch_validation (env : JobEnv) (frwd rev : String)
    (mismatch : Int) (timeout : Option Nat) (hneg : mismatch < 0)
    (hread : env.fileReadable = true) :
    (process_file_amplicon env frwd rev mismatch timeout).spawned = true
    ∧ (process_file_amplicon env frwd rev mismatch timeout).cmd
        = seqkit_amplicon_cmd frwd rev mismatch
    ∧ ∃ v, (process_file_amplicon env frwd rev mismatch timeout).result
        = .ok v := by
  rw [process_file_amplicon, if_pos hread]
  refine ⟨rfl, rfl, ?_⟩
  cases env.behaviour with
  | completes output error returncode => exact ⟨some output, rfl⟩
  | timesOut => exact ⟨none, rfl⟩
  | otherError => exact ⟨none, rfl⟩

/-- Witness for the amended C7: at mismatch `-1` the subprocess is spawned
with `-m -1` and the call returns normally. -/
theorem C7_no_negative_mismatch_validation_witness :
    (process_file_amplicon ⟨true, .completes "" "" 2⟩ "ACGT" "TTTT" (-1)
        none).spawned = true
    ∧ (process_file_amplicon ⟨true, .completes "" "" 2⟩ "ACGT" "TTTT" (-1)
        none).cmd = seqkit_amplicon_cmd "ACGT" "TTTT" (-1)
    ∧ ∃ v, (process_file_amplicon ⟨true, .completes "" "" 2⟩ "ACGT" "TTTT"
        (-1) none).result = .ok v :=
  C7_no_negative_mismatch_validation ⟨true, .completes "" "" 2⟩ "ACGT" "TTTT"
    (-1) none (by decide) (by decide)

/-- The per-level sweep loops of `main` in `Primer_testing_parallelize.py`
(the target loop `for i in range(4)` with no timeout and the neighbour loop
`for i in range(5)` with a 30s timeout are both instances). For each level
`i` the whole level's jobs are run; an exception aborts the sweep (it is
re-raised by `main`); `if not out_seqk: continue` skips the level without
writing a result file when the successful-output list is empty; otherwise
the level's outputs are written to
`{file_path}_seqkit_amplicon_against_{target_type}_m{i}.txt`. The returned
list holds the written files (name and contents) in level order. -/
def sweep_go (frwd rev : String) (admitted : Bool)
    (jobsPerLevel : Nat → List JobEnv) (timeout : Option Nat)
    (stem target_type : String) :
    List Nat → Except PyErr (List (String × List String))
  | [] => .ok []
  | i :: is =>
    match run_seqkit_amplicon_with_optional_timeout frwd rev admitted
        (jobsPerLevel i) (i : Int) timeout with
    | .error e => .error e
    | .ok successful =>
      if successful.isEmpty then
        sweep_go frwd rev admitted jobsPerLevel timeout stem target_type is
      else
        match sweep_go frwd rev admitted jobsPerLevel timeout stem
            target_type is with
        | .error e => .error e
        | .ok rest =>
          .ok ((stem ++ "_seqkit_amplicon_against_" ++ target_type ++ "_m"
              ++ toString i ++ ".txt", successful) :: rest)

/-- C6 counterexample: a target sweep attempting levels 0–3 where level 0
has one completed job with a hit and levels 1–3 fail on every job records
only the level-0 file: the attempted levels 1–3 are dropped from the
recorded sweep result instead of being retained. -/
theorem C6_counterexample_failed_levels_dropped :
    sweep_go "A" "T" true
        (fun i => if i = 0 then [⟨true, .completes "hit" "" 0⟩]
                  else [⟨true, .otherError⟩])
        none "P" "target" (List.range 4) =
      .ok [("P_seqkit_amplicon_against_target_m0.txt", ["hit"])] := rfl

/-- C6 amended: a mismatch level attempted in a sweep is retained in the
recorded sweep result exactly when its list of successful outputs is
non-empty; levels at which every job failed (or no job completed) are
skipped by `if not out_seqk: continue` and are absent from the recorded
result set (no result file is written for them). -/
theorem C6_level_retained_iff_some_success (frwd rev : String)
    (jobsPerLevel : Nat → List JobEnv) (timeout : Option Nat)
    (stem target_type : String) (levels : List Nat)
    (hjobs : ∀ i ∈ levels, jobsPerLevel i ≠ [])
    (hread : ∀ i ∈ levels, ∀ e ∈ jobsPerLevel i, e.fileReadable = true) :
    sweep_go frwd rev true jobsPerLevel timeout stem target_type levels =
      .ok (levels.filterMap (fun i =>
        if successesOf (jobsPerLevel i) = [] then none
        else some (stem ++ "_seqkit_amplicon_against_" ++ target_type ++ "_m"
          ++ toString i ++ ".txt", successesOf (jobsPerLevel i)))) := by
  induction levels with
  | nil => rfl
  | cons i is ih =>
    have h1 := run_seqkit_amplicon_ok frwd rev (jobsPerLevel i) (i : Int)
      timeout (hjobs i (List.mem_cons_self i is)) (hread i (List.mem_cons_self i is))
    have h2 := ih (fun j hj => hjobs j (List.mem_cons_of_mem i hj))
      (fun j hj => hread j (List.mem_cons_of_mem i hj))
    simp only [sweep_go, h1, List.filterMap_cons]
    by_cases hs : successesOf (jobsPerLevel i) = []
    · simp [hs, h2]
    · simp [hs, h2, List.isEmpty_iff]

/-- Witness for the amended C6 at the counterexample sweep: only level 0 is
recorded, matching the filter over the four attempted levels. -/
theorem C6_level_retained_iff_some_success_witness :
    sweep_go "A" "T" true
        (fun i => if i = 0 then [⟨true, .completes "hit" "" 0⟩]
                  else [⟨true, .otherError⟩])
        none "P" "target" (List.range 4) =
      .ok ((List.range 4).filterMap (fun i =>
        if successesOf (if i = 0 then [⟨true, .completes "hit" "" 0⟩]
            else [⟨true, .otherError⟩]) = [] then none
        else some ("P" ++ "_seqkit_amplicon_against_" ++ "target" ++ "_m"
          ++ toString i ++ ".txt",
          successesOf (if i = 0 then [⟨true, .completes "hit" "" 0⟩]
            else [⟨true, .otherError⟩])))) :=
  C6_level_retained_iff_some_success "A" "T"
    (fun i => if i = 0 then [⟨true, .completes "hit" "" 0⟩]
              else [⟨true, .otherError⟩])
    none "P" "target" (List.range 4)
    (by decide) (by decide)

/-- The result of `wait_for_memory` in `Primer_testing_parallelize.py`:
it either returned normally after `polls` polls, raised its `TimeoutError`
after `polls` polls, or the modelling fuel ran out. -/
inductive WaitOutcome where
  | returned (polls : Nat)
  | timedOut (polls : Nat)
  | fuelOut
  deriving Repr, DecidableEq

/-- The `while True:` loop of `wait_for_memory`: at iteration `k` the
available system memory is polled (`readings k` models
`psutil.virtual_memory().available`); if it is at least `min_available` the
function returns; otherwise, if the elapsed time exceeds the hardcoded
`timeout = 21600` seconds, `TimeoutError` is raised; otherwise the loop
sleeps `CHECK_INTERVAL` seconds and polls again. The elapsed time
`time.time() - start_time` after `k` sleeps is modelled as
`k * CHECK_INTERVAL` (the polls themselves take no modelled time). The
structural recursion is bounded by `fuel`. -/
def wait_for_memory_go (min_available CHECK_INTERVAL : Nat)
    (readings : Nat → Nat) : Nat → Nat → WaitOutcome
  | 0, _ => .fuelOut
  | fuel + 1, k =>
    if min_available ≤ readings k then .returned k
    else if 21600 < k * CHECK_INTERVAL then .timedOut k
    else wait_for_memory_go min_available CHECK_INTERVAL readings fuel (k + 1)

/-- `wait_for_memory` of `Primer_testing_parallelize.py`, started at the
first poll with zero elapsed time. -/
def wait_for_memory (min_available CHECK_INTERVAL : Nat)
    (readings : Nat → Nat) (fuel : Nat) : WaitOutcome :=
  wait_for_memory_go min_available CHECK_INTERVAL readings fuel 0

/-- Stepping the admission loop across `d` polls that all see insufficient
memory within the time ceiling. -/
lemma wait_for_memory_go_shift (min_available CHECK_INTERVAL : Nat)
    (readings : Nat → Nat) (d : Nat) :
    ∀ (s fuel : Nat), d ≤ fuel →
    (∀ j, s ≤ j → j < s + d →
      readings j < min_available ∧ j * CHECK_INTERVAL ≤ 21600) →
    wait_for_memory_go min_available CHECK_INTERVAL readings fuel s =
      wait_for_memory_go min_available CHECK_INTERVAL readings (fuel - d)
        (s + d) := by
  induction d with
  | zero => intro s fuel _ _; simp
  | succ d ih =>
    intro s fuel hfuel hcond
    obtain ⟨f, rfl⟩ : ∃ f, fuel = f + 1 :=
      ⟨fuel - 1, by omega⟩
    have h0 := hcond s (Nat.le_refl s) (by omega)
    rw [wait_for_memory_go, if_neg (by omega), if_neg (by omega)]
    have := ih (s + 1) f (by omega)
      (fun j hj1 hj2 => hcond j (by omega) (by omega))
    rw [this]
    congr 1
    · omega
    · omega

/-- C8: `wait_for_memory` returns normally at the first poll that observes
available memory of at least the required minimum (provided the time ceiling
was not exceeded before that poll), and raises `TimeoutError` at the first
poll at which the memory is still insufficient and the elapsed time exceeds
the hardcoded ceiling of 21600 seconds (6 hours), having polled at the
configured interval in between. -/
theorem C8_wait_for_memory_contract (min_available CHECK_INTERVAL : Nat)
    (readings : Nat → Nat) (fuel k : Nat) :
    ((∀ j, j < k → readings j < min_available ∧ j * CHECK_INTERVAL ≤ 21600) →
      min_available ≤ readings k → k < fuel →
      wait_for_memory min_available CHECK_INTERVAL readings fuel
        = .returned k)
    ∧ ((∀ j, j ≤ k → readings j < min_available) →
      (∀ j, j < k → j * CHECK_INTERVAL ≤ 21600) →
      21600 < k * CHECK_INTERVAL → k < fuel →
      wait_for_memory min_available CHECK_INTERVAL readings fuel
        = .timedOut k) := by
  constructor
  · intro hpre hk hfuel
    unfold wait_for_memory
    rw [wait_for_memory_go_shift min_available CHECK_INTERVAL readings k 0 fuel
      (by omega) (fun j hj1 hj2 => hpre j (by omega))]
    obtain ⟨f, hf⟩ : ∃ f, fuel - k = f + 1 := ⟨fuel - k - 1, by omega⟩
    rw [hf, Nat.zero_add, wait_for_memory_go, if_pos hk]
  · intro hmem htime hceil hfuel
    unfold wait_for_memory
    rw [wait_for_memory_go_shift min_available CHECK_INTERVAL readings k 0 fuel
      (by omega)
      (fun j hj1 hj2 => ⟨hmem j (by omega), htime j (by omega)⟩)]
    obtain ⟨f, hf⟩ : ∃ f, fuel - k = f + 1 := ⟨fuel - k - 1, by omega⟩
    rw [hf, Nat.zero_add, wait_for_memory_go,
      if_neg (by have := hmem k (Nat.le_refl k); omega), if_pos hceil]

/-- Witness for C8: with 10 bytes available on the first poll and a floor of
5, admission returns at poll 0; with 0 bytes available throughout, a floor
of 5 and a 21601-second interval, the elapsed time exceeds 21600 at poll 1
and `TimeoutError` is raised there. -/
theorem C8_wait_for_memory_contract_witness :
    wait_for_memory 5 2 (fun _ => 10) 1 = .returned 0
    ∧ wait_for_memory 5 21601 (fun _ => 0) 2 = .timedOut 1 := by
  constructor
  · exact (C8_wait_for_memory_contract 5 2 (fun _ => 10) 1 0).1
      (fun j hj => (Nat.not_lt_zero j hj).elim) (by decide) (by decide)
  · exact (C8_wait_for_memory_contract 5 21601 (fun _ => 0) 2 1).2
      (fun j _ => by decide) (fun j hj => by omega) (by decide) (by decide)

/-- The result of the `monitor_memory` watchdog of
`Primer_testing_parallelize.py`: it either killed the monitored process at
poll `polls`, returned silently because the process was gone, or the
modelling fuel ran out. -/
inductive MonitorOutcome where
  | killed (polls : Nat)
  | exitedSilently (polls : Nat)
  | fuelOut
  deriving Repr, DecidableEq

/-- The polling loop of `monitor_memory`: at poll `k` the observation
`rss k` is `some mem` when the process is running with resident set size
`mem`, and `none` when the process is no longer there (either
`proc.is_running()` is false, ending the `while` loop, or reading
`memory_info` raises `psutil.NoSuchProcess`, which is caught by the
surrounding `except ... : pass`) — both paths return silently. When
`mem > threshold` the process is killed and the watchdog returns; otherwise
it sleeps one second and polls again. The structural recursion is bounded by
`fuel`. -/
def monitor_memory_go (threshold : Nat) (rss : Nat → Option Nat) :
    Nat → Nat → MonitorOutcome
  | 0, _ => .fuelOut
  | fuel + 1, k =>
    match rss k with
    | none => .exitedSilently k
    | some mem =>
      if threshold < mem then .killed k
      else monitor_memory_go threshold rss fuel (k + 1)

/-- `monitor_memory` of `Primer_testing_parallelize.py`, started at the
first poll. -/
def monitor_memory (threshold : Nat) (rss : Nat → Option Nat)
    (fuel : Nat) : MonitorOutcome :=
  monitor_memory_go threshold rss fuel 0

/-- The watchdog only ever kills after observing a resident-set-size reading
that strictly exceeds the threshold. -/
lemma monitor_memory_go_killed_sound (threshold : Nat)
    (rss : Nat → Option Nat) :
    ∀ (fuel s k : Nat),
      monitor_memory_go threshold rss fuel s = .killed k →
      ∃ mem, rss k = some mem ∧ threshold < mem := by
  intro fuel
  induction fuel with
  | zero => intro s k h; exact absurd h (by simp [monitor_memory_go])
  | succ f ih =>
    intro s k h
    rw [monitor_memory_go] at h
    cases hr : rss s with
    | none => simp [hr] at h
    | some mem =>
      simp only [hr] at h
      by_cases hm : threshold < mem
      · rw [if_pos hm] at h
        cases h
        exact ⟨mem, hr, hm⟩
      · rw [if_neg hm] at h
        exact ih (s + 1) k h

/-- Stepping the watchdog across `d` polls that all observe a live process
within the threshold. -/
lemma monitor_memory_go_shift (threshold : Nat) (rss : Nat → Option Nat)
    (d : Nat) :
    ∀ (s fuel : Nat), d ≤ fuel →
    (∀ j, s ≤ j → j < s + d → ∃ mem, rss j = some mem ∧ mem ≤ threshold) →
    monitor_memory_go threshold rss fuel s =
      monitor_memory_go threshold rss (fuel - d) (s + d) := by
  induction d with
  | zero => intro s fuel _ _; simp
  | succ d ih =>
    intro s fuel hfuel hcond
    obtain ⟨f, rfl⟩ : ∃ f, fuel = f + 1 := ⟨fuel - 1, by omega⟩
    obtain ⟨mem, hmem, hle⟩ := hcond s (Nat.le_refl s) (by omega)
    rw [monitor_memory_go]
    simp only [hmem]
    rw [if_neg (by omega)]
    have := ih (s + 1) f (by omega)
      (fun j hj1 hj2 => hcond j (by omega) (by omega))
    rw [this]
    congr 1
    · omega
    · omega

/-- C9: the memory watchdog never kills the monitored process unless a
polled resident-set-size reading strictly exceeds the byte threshold; at the
first poll whose reading exceeds the threshold it kills the process and
returns; and if the process is found gone at a poll (after in-threshold
readings), it returns silently without raising. -/
theorem C9_monitor_memory_watchdog (threshold : Nat)
    (rss : Nat → Option Nat) (fuel k : Nat) :
    ((monitor_memory threshold rss fuel = .killed k) →
      ∃ mem, rss k = some mem ∧ threshold < mem)
    ∧ ((∀ j, j < k → ∃ mem, rss j = some mem ∧ mem ≤ threshold) →
      ∀ mem, rss k = some mem → threshold < mem → k < fuel →
      monitor_memory threshold rss fuel = .killed k)
    ∧ ((∀ j, j < k → ∃ mem, rss j = some mem ∧ mem ≤ threshold) →
      rss k = none → k < fuel →
      monitor_memory threshold rss fuel = .exitedSilently k) := by
  refine ⟨fun h => monitor_memory_go_killed_sound threshold rss fuel 0 k h,
    ?_, ?_⟩
  · intro hpre mem hmem hgt hfuel
    unfold monitor_memory
    rw [monitor_memory_go_shift threshold rss k 0 fuel (by omega)
      (fun j hj1 hj2 => hpre j (by omega))]
    obtain ⟨f, hf⟩ : ∃ f, fuel - k = f + 1 := ⟨fuel - k - 1, by omega⟩
    rw [hf, Nat.zero_add, monitor_memory_go]
    simp only [hmem]
    rw [if_pos hgt]
  · intro hpre hnone hfuel
    unfold monitor_memory
    rw [monitor_memory_go_shift threshold rss k 0 fuel (by omega)
      (fun j hj1 hj2 => hpre j (by omega))]
    obtain ⟨f, hf⟩ : ∃ f, fuel - k = f + 1 := ⟨fuel - k - 1, by omega⟩
    rw [hf, Nat.zero_add, monitor_memory_go]
    simp only [hnone]

/-- Witness for C9: a breach at poll 1 (after an in-threshold poll 0) kills
at poll 1 and implies an over-threshold reading there; a process gone at
poll 1 ends the watchdog silently. -/
theorem C9_monitor_memory_watchdog_witness :
    (∃ mem, (fun j => if j = 0 then some 10 else some 100) 1 = some mem ∧
      50 < mem)
    ∧ monitor_memory 50 (fun j => if j = 0 then some 10 else some 100) 2 =
        .killed 1
    ∧ monitor_memory 50 (fun j => if j = 0 then some 10 else none) 2 =
        .exitedSilently 1 := by
  refine ⟨?_, ?_, ?_⟩
  · exact (C9_monitor_memory_watchdog 50
      (fun j => if j = 0 then some 10 else some 100) 2 1).1 (by decide)
  · exact (C9_monitor_memory_watchdog 50
      (fun j => if j = 0 then some 10 else some 100) 2 1).2.1
      (fun j hj => by
        have hj0 : j = 0 := by omega
        subst hj0
        exact ⟨10, rfl, by decide⟩)
      100 (by decide) (by decide) (by decide)
  · exact (C9_monitor_memory_watchdog 50
      (fun j => if j = 0 then some 10 else none) 2 1).2.2
      (fun j hj => by
        have hj0 : j = 0 := by omega
        subst hj0
        exact ⟨10, rfl, by decide⟩)
      (by decide) (by decide)

/-- A Python float as consumed from the `evalue` column: a finite value or
`float("inf")` (the sentinel). -/
inductive EValue where
  | finite (q : ℚ)
  | inf
  deriving Repr, DecidableEq

/-- One parsed row of a BLASTX tabular output file, restricted to the three
columns `get_highest_scoring_accession` consumes (`sseqid`, `evalue`,
`bitscore`); the remaining nine columns of the `outfmt 6` layout are never
read. -/
structure BlastRow where
  sseqid : String
  evalue : EValue
  bitscore : ℚ
  deriving Repr, DecidableEq

/-- `df.loc[df["bitscore"].idxmax()]`: the first row attaining the maximal
bitscore, or `none` for an empty frame (where `idxmax` raises, feeding the
bare `except:`). -/
def idxmaxBitscore : List BlastRow → Option BlastRow
  | [] => none
  | r :: rs =>
    match idxmaxBitscore rs with
    | none => some r
    | some best => if r.bitscore < best.bitscore then some best else some r

/-- A BLASTX results file as observed by `get_highest_scoring_accession`:
whether it exists, its size in bytes, and what
`pd.read_csv(..., sep="\t", comment="#", names=columns)` followed by the
bitscore processing would yield — `.ok rows` on a clean parse, `.error ()`
when reading or parsing fails (malformed rows, missing columns, non-numeric
bitscore, any other exception inside the `try`). -/
structure BlastFile where
  fileExists : Bool
  size : Nat
  parsed : Except Unit (List BlastRow)
  deriving Repr

/-- `get_highest_scoring_accession` of
`Summarize_results_module_improved.py`: a missing or zero-size file raises
`FileNotFoundError` before the `try` block; inside the `try`, an empty frame
raises `ValueError` and any failure is caught by the bare `except:`, which
returns the sentinel `("Blast did not find hits", float("inf"), 0)`;
otherwise the `sseqid`, `evalue` and `bitscore` of the highest-scoring row
are returned. -/
def get_highest_scoring_accession (f : BlastFile) :
    Except String (String × EValue × ℚ) :=
  if ¬ f.fileExists = true ∨ f.size = 0 then
    .error "FileNotFoundError"
  else
    match f.parsed with
    | .error _ => .ok ("Blast did not find hits", .inf, 0)
    | .ok rows =>
      match idxmaxBitscore rows with
      | none => .ok ("Blast did not find hits", .inf, 0)
      | some row => .ok (row.sseqid, row.evalue, row.bitscore)

/-- C10: for every BLASTX results file that exists and is non-empty,
`get_highest_scoring_accession` returns normally; any reading or parsing
failure (and the empty-frame case) yields the sentinel
`("Blast did not find hits", inf, 0)` instead of propagating an exception;
and `FileNotFoundError` is raised exactly for a missing or zero-size
file. -/
theorem C10_blastx_parse_never_raises (f : BlastFile) :
    ((f.fileExists = true → f.size ≠ 0 →
      ∃ v, get_highest_scoring_accession f = .ok v)
    ∧ (f.fileExists = true → f.size ≠ 0 →
      (f.parsed = .error () ∨ f.parsed = .ok []) →
      get_highest_scoring_accession f =
        .ok ("Blast did not find hits", .inf, 0))
    ∧ ((¬ f.fileExists = true ∨ f.size = 0) ↔
      get_highest_scoring_accession f = .error "FileNotFoundError")) := by
  have hok : f.fileExists = true → f.size ≠ 0 →
      ∃ v, get_highest_scoring_accession f = .ok v := by
    intro hex hsz
    unfold get_highest_scoring_accession
    rw [if_neg (by simp [hex, hsz])]
    cases hp : f.parsed with
    | error e => exact ⟨_, rfl⟩
    | ok rows =>
      cases hr : idxmaxBitscore rows with
      | none => exact ⟨("Blast did not find hits", .inf, 0), by simp [hr]⟩
      | some row =>
        exact ⟨(row.sseqid, row.evalue, row.bitscore), by simp [hr]⟩
  refine ⟨hok, ?_, ?_⟩
  · intro hex hsz hpe
    unfold get_highest_scoring_accession
    rw [if_neg (by simp [hex, hsz])]
    rcases hpe with hp | hp
    · rw [hp]
    · rw [hp]
      rfl
  · constructor
    · intro hc
      unfold get_highest_scoring_accession
      rw [if_pos hc]
    · intro h
      by_contra hc
      push_neg at hc
      obtain ⟨v, hv⟩ := hok hc.1 hc.2
      rw [hv] at h
      exact Except.noConfusion h

/-- Witness for C10: a non-empty file whose parse fails yields the sentinel
triple; a missing file raises `FileNotFoundError`. -/
theorem C10_blastx_parse_never_raises_witness :
    get_highest_scoring_accession ⟨true, 5, .error ()⟩ =
      .ok ("Blast did not find hits", .inf, 0)
    ∧ get_highest_scoring_accession ⟨false, 0, .ok []⟩ =
      .error "FileNotFoundError" := by
  constructor
  · exact (C10_blastx_parse_never_raises ⟨true, 5, .error ()⟩).2.1 rfl
      (by decide) (Or.inl rfl)
  · exact (C10_blastx_parse_never_raises ⟨false, 0, .ok []⟩).2.2.mp
      (Or.inr rfl)
